import Mathlib

/-!
Shallow embedding of the drivechain bridging core (`drivechain/drivechain.go`):
the withdrawal codec, unit conversion, deposit listing, the `ConnectBlock`
marshalling layer, the treasury start-up identity check, and (modelled from the
spec where the native library's code is not in the repository) the block
reconciler state machine and the BMM verify primitive.

Machine integers are modelled as `Nat` (with explicit `% 2 ^ w` or bound
hypotheses where overflow matters), Go `byte`/C `uchar` as `Fin 256`,
`*big.Int` as `Int`, and Go panics / recoverable errors as `Except` variants.
-/

namespace Drivechain

/-- A byte, as held in a Go `[]byte` slice or a C `uchar` array. -/
abbrev Byte := Fin 256

/-- Go's `byte(n)` conversion: truncate a `Nat` to its low 8 bits. -/
def byteOf (n : Nat) : Byte := ⟨n % 256, Nat.mod_lt _ (by decide)⟩

/-- `binary.BigEndian.PutUint64`: the 8 big-endian bytes of `fee`
(`feeBytes[i] = byte(fee >> (56 - 8*i))`). -/
def putUint64BE (v : Nat) : List Byte :=
  [byteOf (v / 2 ^ 56), byteOf (v / 2 ^ 48), byteOf (v / 2 ^ 40), byteOf (v / 2 ^ 32),
   byteOf (v / 2 ^ 24), byteOf (v / 2 ^ 16), byteOf (v / 2 ^ 8), byteOf v]

/-- `binary.BigEndian.Uint64` on an 8-byte slice: big-endian accumulation. -/
def beUint64 (bs : List Byte) : Nat :=
  bs.foldl (fun acc b => acc * 256 + b.val) 0

/-- Go's `int64(u)` conversion of a `uint64` value `u`: two's-complement
reinterpretation (values `≥ 2^63` become negative). -/
def int64OfUInt64 (u : Nat) : Int :=
  if u % 2 ^ 64 < 2 ^ 63 then ((u % 2 ^ 64 : Nat) : Int)
  else ((u % 2 ^ 64 : Nat) : Int) - 2 ^ 64

/-- `var Satoshi = big.NewInt(10_000_000_000)`: Wei per Satoshi. -/
def Satoshi : Int := 10000000000

/-- `amount.Div(value, Satoshi)` — Go `big.Int.Div` is Euclidean division,
which for the positive divisor `Satoshi` is floor division (`Int.fdiv`). -/
def toMainchainUnits (value : Int) : Int := Int.fdiv value Satoshi

/-- Modelled from the spec: `toSidechainUnits(satoshi) = satoshi * 10^10`.
The deposit-direction scaling is performed outside this repository's source
(the spec's Unit Converter, §4.1); only the constant `Satoshi` and the
withdrawal-direction floor division appear in `drivechain.go`. -/
def toSidechainUnits (satoshi : Int) : Int := satoshi * Satoshi

/-- The `Withdrawal` struct: a 20-byte mainchain address (`[20]C.uchar`),
and `*big.Int` amount and fee. -/
structure Withdrawal where
  address : List Byte
  amount : Int
  fee : Int
  deriving Repr, DecidableEq

/-- How `DecodeWithdrawal` can fail: the recoverable wrong-length error, or
one of the two `panic("off by one error")` branches (modelled as a distinct
error variant so that unreachability can be stated). -/
inductive DecodeError where
  | malformedWithdrawalData
  | offByOnePanic
  deriving Repr, DecidableEq

deriving instance DecidableEq for Except

/-- `DecodeWithdrawal(value, data)`: rejects `data` whose length is not 28;
otherwise takes `data[0:8]` as the big-endian fee (converted through Go's
`int64`, then `big.NewInt`), `data[8:28]` as the raw address bytes, and
divides `value` by `Satoshi` to get the amount. -/
def DecodeWithdrawal (value : Int) (data : List Byte) : Except DecodeError Withdrawal :=
  if data.length ≠ 28 then
    .error .malformedWithdrawalData
  else
    let feeBytes := data.take 8
    if feeBytes.length ≠ 8 then
      .error .offByOnePanic
    else
      let addressBytes := (data.drop 8).take 20
      if addressBytes.length ≠ 20 then
        .error .offByOnePanic
      else
        let amount := toMainchainUnits value
        let fee := int64OfUInt64 (beUint64 feeBytes)
        .ok { address := addressBytes, amount := amount, fee := fee }

/-- `GetWithdrawalData(fee)`: 8 big-endian fee bytes followed by the 20 raw
bytes of the freshly allocated mainchain address returned by the connector's
`get_new_mainchain_address` (a `[20]C.uchar` array, passed here as `addr`
with a length-20 hypothesis carried by callers). -/
def GetWithdrawalData (addr : List Byte) (fee : Nat) : List Byte :=
  putUint64BE fee ++ addr

/-- A `RawDeposit` as produced from the connector's `get_deposit_outputs`:
an address string and a `uint64` amount (modelled as a `Nat`, with the
`< 2^64` bound carried as a hypothesis where it matters). -/
structure RawDeposit where
  address : String
  amount : Nat
  deriving Repr, DecidableEq

/-- The exported `Deposit` struct: a `common.Address` (kept here as the raw
string the external `common.HexToAddress` would parse) and a `*big.Int`
amount. -/
structure Deposit where
  address : String
  amount : Int
  deriving Repr, DecidableEq

/-- `GetDepositOutputs`: maps each raw deposit through
`big.NewInt(int64(rawDeposit.amount))`, i.e. the `uint64` amount is
reinterpreted as a signed `int64` before widening to a big integer. -/
def GetDepositOutputs (rawDeposits : List RawDeposit) : List Deposit :=
  rawDeposits.map fun rawDeposit =>
    { address := rawDeposit.address, amount := int64OfUInt64 rawDeposit.amount }

/-- A 32-byte hash (`common.Hash`, used for withdrawal transaction ids),
modelled as a `Nat`; only identity matters for the claims below. -/
abbrev Hash := Nat

/-- The C-side buffers `ConnectBlock` marshals its arguments into: the
element capacity `malloc` reserves for each array, and the indices written.
The refunds buffer is allocated with
`C.malloc(C.size_t(len(withdrawals)) * C.size_t(unsafe.Sizeof(C.Refund{})))`
— sized by the number of withdrawals — while the loop writes one `C.Refund`
per element of `refunds`. -/
structure ConnectBlockBuffers where
  depositsCapacity : Nat
  withdrawalsCapacity : Nat
  refundsCapacity : Nat
  refundWriteIndices : List Nat
  deriving Repr, DecidableEq

/-- The marshalling layer of `ConnectBlock`: buffer capacities and the refund
write indices, as the Go code computes them. -/
def connectBlockBuffers (deposits : List Deposit) (withdrawals : List (Hash × Withdrawal))
    (refunds : List Hash) : ConnectBlockBuffers :=
  { depositsCapacity := deposits.length
    withdrawalsCapacity := withdrawals.length
    refundsCapacity := withdrawals.length
    refundWriteIndices := List.range refunds.length }

/-- Modelled from the spec: the persistent state behind the native
`connect_block` (not in this repository's source) — the queued withdrawals,
the consumed deposits, the set of failed withdrawals eligible for refund, and
the mainchain connector's view of confirmed deposit outputs. -/
structure SidechainState where
  queuedWithdrawals : List (Hash × Withdrawal)
  consumedDeposits : List Deposit
  failedWithdrawals : List Hash
  confirmedDeposits : List Deposit
  deriving Repr, DecidableEq

/-- Modelled from the spec: `connect_block` validation — deposits correspond
to real confirmed mainchain outputs not already consumed, withdrawal ids are
unique, and refunds reference withdrawals that genuinely failed. -/
def validBlock (st : SidechainState) (deposits : List Deposit)
    (withdrawals : List (Hash × Withdrawal)) (refunds : List Hash) : Bool :=
  deposits.all (fun d => d ∈ st.confirmedDeposits ∧ d ∉ st.consumedDeposits) &&
  (withdrawals.map Prod.fst).Nodup &&
  refunds.all (fun r => r ∈ st.failedWithdrawals)

/-- Modelled from the spec: the commit phase of `connect_block` — deposits
are marked consumed, withdrawals are queued for bundling, and refunds release
the corresponding withdrawal back to a re-issuable state. -/
def commitBlock (st : SidechainState) (deposits : List Deposit)
    (withdrawals : List (Hash × Withdrawal)) (refunds : List Hash) : SidechainState :=
  { st with
    queuedWithdrawals := st.queuedWithdrawals ++ withdrawals
    consumedDeposits := st.consumedDeposits ++ deposits
    failedWithdrawals := st.failedWithdrawals.filter (fun f => f ∉ refunds) }

/-- Modelled from the spec: the native `connect_block` called by
`ConnectBlock` — validates in both modes, mutates only when validation
passes and `justChecking` is false, and returns false with no mutation on
any validation failure. -/
def connectBlock (st : SidechainState) (deposits : List Deposit)
    (withdrawals : List (Hash × Withdrawal)) (refunds : List Hash)
    (justChecking : Bool) : Bool × SidechainState :=
  if validBlock st deposits withdrawals refunds then
    if justChecking then (true, st)
    else (true, commitBlock st deposits withdrawals refunds)
  else (false, st)

/-- Modelled from the spec: the mainchain state the BMM verify primitive
reads — which (main block hash, critical hash) commitments exist in the
mainchain's public data. -/
structure MainchainView where
  commitments : List (Hash × Hash)
  deriving Repr, DecidableEq

/-- Modelled from the spec: local, transient BMM attempt state held by one
process (`attempt`'s critical hash, previous main block hash and bid). -/
structure BmmLocalState where
  lastAttempt : Option (Hash × Hash × Nat)
  deriving Repr, DecidableEq

/-- The state one calling process sees: the shared mainchain view plus its
own local BMM attempt state. -/
structure BmmProcessState where
  mainchain : MainchainView
  localAttempts : BmmLocalState
  deriving Repr, DecidableEq

/-- Modelled from the spec: the native `verify_bmm` — a pure check of
whether `mainBlockHash` commits to `criticalHash`, reading only public
mainchain data. -/
def verifyBmmPure (mc : MainchainView) (mainBlockHash criticalHash : Hash) : Bool :=
  (mainBlockHash, criticalHash) ∈ mc.commitments

/-- `VerifyBmm` as a process calls it: the Go wrapper passes only the two
hashes to the native `verify_bmm`; the result is read off the mainchain view
and no component of the process state is written (the returned state is the
input state, unchanged). -/
def VerifyBmm (st : BmmProcessState) (mainBlockHash criticalHash : Hash) :
    Bool × BmmProcessState :=
  (verifyBmmPure st.mainchain mainBlockHash criticalHash, st)

/-! ### Treasury identity check (`Init`)

`Init` derives the treasury account address from the constant private key via
`crypto.HexToECDSA` / `crypto.PubkeyToAddress` (secp256k1 scalar
multiplication followed by Keccak-256 of the 64-byte public key, keeping the
last 20 bytes) and panics unless the lowercased hex form equals the constant
`TREASURY_ACCOUNT`. The curve and hash arithmetic below embeds that
derivation over `Nat`. -/

/-- The secp256k1 field prime. -/
def secpP : Nat := 2 ^ 256 - 2 ^ 32 - 977

/-- Field multiplication modulo `secpP`. -/
def mulP (a b : Nat) : Nat := a * b % secpP

/-- Field subtraction modulo `secpP` (operands already reduced). -/
def subP (a b : Nat) : Nat := (a + (secpP - b % secpP)) % secpP

/-- Fuel-driven square-and-multiply modular exponentiation. -/
def powModAux : Nat → Nat → Nat → Nat → Nat → Nat
  | 0, _, _, _, acc => acc
  | fuel + 1, b, e, m, acc =>
      if e = 0 then acc
      else powModAux fuel (b * b % m) (e / 2) m (if e % 2 = 1 then acc * b % m else acc)

/-- `b ^ e % m` for `m > 1`, with enough fuel for 256-bit exponents. -/
def powMod (b e m : Nat) : Nat := powModAux 257 (b % m) e m (1 % m)

/-- A secp256k1 point in Jacobian coordinates (`z = 0` is the point at
infinity). -/
structure JacPoint where
  x : Nat
  y : Nat
  z : Nat
  deriving Repr, DecidableEq

/-- The point at infinity. -/
def jacZero : JacPoint := ⟨0, 1, 0⟩

/-- Jacobian point doubling on secp256k1 (curve coefficient `a = 0`). -/
def jacDouble (P : JacPoint) : JacPoint :=
  if P.z = 0 then jacZero
  else if P.y = 0 then jacZero
  else
    let YY := mulP P.y P.y
    let S := mulP 4 (mulP P.x YY)
    let M := mulP 3 (mulP P.x P.x)
    let X3 := subP (mulP M M) (mulP 2 S)
    let Y3 := subP (mulP M (subP S X3)) (mulP 8 (mulP YY YY))
    let Z3 := mulP 2 (mulP P.y P.z)
    ⟨X3, Y3, Z3⟩

/-- Jacobian point addition on secp256k1. -/
def jacAdd (P Q : JacPoint) : JacPoint :=
  if P.z = 0 then Q
  else if Q.z = 0 then P
  else
    let Z1Z1 := mulP P.z P.z
    let Z2Z2 := mulP Q.z Q.z
    let U1 := mulP P.x Z2Z2
    let U2 := mulP Q.x Z1Z1
    let S1 := mulP P.y (mulP Z2Z2 Q.z)
    let S2 := mulP Q.y (mulP Z1Z1 P.z)
    if U1 = U2 then
      if S1 = S2 then jacDouble P else jacZero
    else
      let H := subP U2 U1
      let HH := mulP H H
      let HHH := mulP H HH
      let R := subP S2 S1
      let X3 := subP (subP (mulP R R) HHH) (mulP 2 (mulP U1 HH))
      let Y3 := subP (mulP R (subP (mulP U1 HH) X3)) (mulP S1 HHH)
      let Z3 := mulP H (mulP P.z Q.z)
      ⟨X3, Y3, Z3⟩

/-- Fuel-driven double-and-add scalar multiplication (LSB first). -/
def scalarMulAux : Nat → Nat → JacPoint → JacPoint → JacPoint
  | 0, _, acc, _ => acc
  | fuel + 1, k, acc, base =>
      if k = 0 then acc
      else scalarMulAux fuel (k / 2)
        (if k % 2 = 1 then jacAdd acc base else acc) (jacDouble base)

/-- The secp256k1 base point `G`. -/
def secpG : JacPoint :=
  ⟨0x79BE667EF9DCBBAC55A06295CE870B07029BFCDB2DCE28D959F2815B16F81798,
   0x483ADA7726A3C4655DA4FBFC0E1108A8FD17B448A68554199C47D08FFB10D4B8, 1⟩

/-- `d * G`, the public key point of private scalar `d`. -/
def pubKeyPoint (d : Nat) : JacPoint := scalarMulAux 257 d jacZero secpG

/-- Jacobian-to-affine conversion (field inversion by Fermat). -/
def jacToAffine (P : JacPoint) : Option (Nat × Nat) :=
  if P.z = 0 then none
  else
    let zi := powMod P.z (secpP - 2) secpP
    let zi2 := mulP zi zi
    some (mulP P.x zi2, mulP P.y (mulP zi zi2))

/-- The Keccak ρ rotation offset of the lane with flat index `x + 5 * y`. -/
def keccakRot (i : Nat) : Nat :=
  match i with
  | 1 => 1
  | 2 => 62
  | 3 => 28
  | 4 => 27
  | 5 => 36
  | 6 => 44
  | 7 => 6
  | 8 => 55
  | 9 => 20
  | 10 => 3
  | 11 => 10
  | 12 => 43
  | 13 => 25
  | 14 => 39
  | 15 => 41
  | 16 => 45
  | 17 => 15
  | 18 => 21
  | 19 => 8
  | 20 => 18
  | 21 => 2
  | 22 => 61
  | 23 => 56
  | 24 => 14
  | _ => 0

/-- The 24 Keccak ι round constants (decimal values of the standard
`0x0000000000000001 …  0x8000000080008008` table). -/
def keccakRC : List Nat :=
  [1, 32898, 9223372036854808714,
   9223372039002292224, 32907, 2147483649,
   9223372039002292353, 9223372036854808585, 138,
   136, 2147516425, 2147483658,
   2147516555, 9223372036854775947, 9223372036854808713,
   9223372036854808579, 9223372036854808578, 9223372036854775936,
   32778, 9223372039002259466, 9223372039002292353,
   9223372036854808704, 2147483649, 9223372039002292232]

/-- All-ones 64-bit mask. -/
def mask64 : Nat := 2 ^ 64 - 1

/-- 64-bit left rotation. -/
def rotl64 (w n : Nat) : Nat :=
  if n = 0 then w % 2 ^ 64
  else ((w <<< n) % 2 ^ 64) ||| ((w % 2 ^ 64) >>> (64 - n))

/-- One Keccak-f[1600] round on a 25-lane state (flat index `x + 5 * y`). -/
def keccakRound (A : List Nat) (rc : Nat) : List Nat :=
  let C := (List.range 5).map fun x =>
    A.getD x 0 ^^^ A.getD (x + 5) 0 ^^^ A.getD (x + 10) 0 ^^^
      A.getD (x + 15) 0 ^^^ A.getD (x + 20) 0
  let D := (List.range 5).map fun x =>
    C.getD ((x + 4) % 5) 0 ^^^ rotl64 (C.getD ((x + 1) % 5) 0) 1
  let A1 := (List.range 25).map fun i => A.getD i 0 ^^^ D.getD (i % 5) 0
  let B := (List.range 25).map fun j =>
    let x := (j % 5 + 3 * (j / 5)) % 5
    let y := j % 5
    rotl64 (A1.getD (x + 5 * y) 0) (keccakRot (x + 5 * y))
  let A2 := (List.range 25).map fun i =>
    let x := i % 5
    let row := 5 * (i / 5)
    B.getD i 0 ^^^ ((B.getD ((x + 1) % 5 + row) 0 ^^^ mask64) &&& B.getD ((x + 2) % 5 + row) 0)
  match A2 with
  | a :: rest => (a ^^^ rc) :: rest
  | [] => []

/-- The full Keccak-f[1600] permutation: 24 rounds. -/
def keccakF (A : List Nat) : List Nat := keccakRC.foldl keccakRound A

/-- Read one 64-bit lane from 8 little-endian bytes. -/
def bytesToLaneLE (bs : List Nat) : Nat := bs.foldr (fun b acc => b + 256 * acc) 0

/-- Write one 64-bit lane as 8 little-endian bytes. -/
def laneToBytesLE (w : Nat) : List Nat :=
  [w % 256, w / 2 ^ 8 % 256, w / 2 ^ 16 % 256, w / 2 ^ 24 % 256,
   w / 2 ^ 32 % 256, w / 2 ^ 40 % 256, w / 2 ^ 48 % 256, w / 2 ^ 56 % 256]

/-- Keccak-256 of a message of at most 134 bytes (a single 136-byte-rate
block after `0x01 … 0x80` padding); the public-key hash uses 64 bytes. -/
def keccak256 (msg : List Nat) : List Nat :=
  let block := msg ++ [0x01] ++ List.replicate (134 - msg.length) 0 ++ [0x80]
  let lanes := (List.range 17).map fun j => bytesToLaneLE ((block.drop (8 * j)).take 8)
  let final := keccakF (lanes ++ List.replicate 8 0)
  ((List.range 4).map fun j => laneToBytesLE (final.getD j 0)).flatten

/-- A `Nat` as `len` big-endian bytes. -/
def natToBeBytes : Nat → Nat → List Nat
  | 0, _ => []
  | len + 1, v => natToBeBytes len (v / 256) ++ [v % 256]

/-- Big-endian bytes back to a `Nat`. -/
def beBytesToNat (bs : List Nat) : Nat := bs.foldl (fun acc b => acc * 256 + b) 0

/-- `crypto.PubkeyToAddress`: the last 20 bytes of the Keccak-256 hash of the
64-byte uncompressed public key `x ‖ y`, as a `Nat`. -/
def pubkeyToAddress (x y : Nat) : Nat :=
  beBytesToNat ((keccak256 (natToBeBytes 32 x ++ natToBeBytes 32 y)).drop 12)

/-- One hex digit's value, or `none` for a non-hex character. -/
def hexDigitVal (c : Char) : Option Nat :=
  let n := c.toNat
  if 48 ≤ n ∧ n ≤ 57 then some (n - 48)
  else if 97 ≤ n ∧ n ≤ 102 then some (n - 87)
  else if 65 ≤ n ∧ n ≤ 70 then some (n - 55)
  else none

/-- Parse a hex string to a `Nat` (`none` on any non-hex character), as
`crypto.HexToECDSA` parses the private-key constant. -/
def parseHex (s : String) : Option Nat :=
  s.data.foldl
    (fun acc c =>
      match acc, hexDigitVal c with
      | some a, some v => some (a * 16 + v)
      | _, _ => none)
    (some 0)

/-- `const TREASURY_PRIVATE_KEY`. -/
def TREASURY_PRIVATE_KEY : String :=
  "deadbeefdeadbeefdeadbeefdeadbeefdeadbeefdeadbeefdeadbeefdeadbeef"

/-- `const TREASURY_ACCOUNT`. -/
def TREASURY_ACCOUNT : String := "0xc96aaa54e2d44c299564da76e1cd3184a2386b8d"

/-- The address `Init` derives from the constant private key:
parse, multiply the base point, hash the public key. `none` would mean the
key fails to parse or gives the point at infinity. -/
def derivedTreasuryAddress : Option Nat :=
  match parseHex TREASURY_PRIVATE_KEY with
  | none => none
  | some d =>
    match jacToAffine (pubKeyPoint d) with
    | none => none
    | some (x, y) => some (pubkeyToAddress x y)

/-- The lowercase hex digit for a nibble. -/
def hexDigitChar (n : Nat) : Char :=
  if n < 10 then Char.ofNat (48 + n) else Char.ofNat (87 + n)

/-- A `Nat` as `len` lowercase hex characters (big-endian). -/
def natToHexChars : Nat → Nat → List Char
  | 0, _ => []
  | len + 1, v => natToHexChars len (v / 16) ++ [hexDigitChar (v % 16)]

/-- `strings.ToLower(address.Hex())`: `common.Address.Hex` is `0x` followed
by the 40 EIP-55 mixed-case hex digits of the 20-byte address, and lowering
that checksummed form yields exactly this plain lowercase hex string. -/
def actualTreasuryAccountOf (derivedAddress : Nat) : String :=
  "0x" ++ String.mk (natToHexChars 40 derivedAddress)

/-- The comparison `Init` performs: panic (modelled as `.error`) unless the
constant equals the lowercased derived address; startup proceeds (`.ok`)
otherwise. -/
def InitCheck (derivedAddress : Nat) : Except String Unit :=
  if TREASURY_ACCOUNT ≠ actualTreasuryAccountOf derivedAddress then
    .error "treasury account mismatch panic"
  else .ok ()

/-! ## Theorems -/

theorem putUint64BE_length (v : Nat) : (putUint64BE v).length = 8 := rfl

theorem beUint64_putUint64BE (v : Nat) (h : v < 2 ^ 64) :
    beUint64 (putUint64BE v) = v := by
  simp only [putUint64BE, beUint64, byteOf, List.foldl_cons, List.foldl_nil]
  omega

theorem int64OfUInt64_of_lt (u : Nat) (h : u < 2 ^ 63) :
    int64OfUInt64 u = (u : Int) := by
  unfold int64OfUInt64
  rw [Nat.mod_eq_of_lt (by omega), if_pos h]

theorem int64OfUInt64_of_ge (u : Nat) (hge : 2 ^ 63 ≤ u) (hlt : u < 2 ^ 64) :
    int64OfUInt64 u = (u : Int) - 2 ^ 64 := by
  unfold int64OfUInt64
  rw [Nat.mod_eq_of_lt hlt, if_neg (by omega)]

theorem int64OfUInt64_neg_of_ge (u : Nat) (hge : 2 ^ 63 ≤ u) (hlt : u < 2 ^ 64) :
    int64OfUInt64 u < 0 := by
  rw [int64OfUInt64_of_ge u hge hlt]
  omega

theorem decodeWithdrawal_ok (value : Int) (data : List Byte) (h : data.length = 28) :
    DecodeWithdrawal value data =
      .ok ⟨data.drop 8, toMainchainUnits value, int64OfUInt64 (beUint64 (data.take 8))⟩ := by
  have h8 : (data.take 8).length = 8 := by simp [h]
  have hd : ((data.drop 8).take 20) = data.drop 8 :=
    List.take_of_length_le (by simp [h])
  unfold DecodeWithdrawal
  rw [if_neg (by omega), if_neg (by omega), hd, if_neg (by simp [h])]

theorem getWithdrawalData_length (addr : List Byte) (h : addr.length = 20) (fee : Nat) :
    (GetWithdrawalData addr fee).length = 28 := by
  simp [GetWithdrawalData, h, putUint64BE_length]

theorem getWithdrawalData_take (addr : List Byte) (fee : Nat) :
    (GetWithdrawalData addr fee).take 8 = putUint64BE fee :=
  List.take_left' (putUint64BE_length fee)

theorem getWithdrawalData_drop (addr : List Byte) (fee : Nat) :
    (GetWithdrawalData addr fee).drop 8 = addr :=
  List.drop_left' (putUint64BE_length fee)

/-- C1 (counterexample): at fee `2^63` the claimed round-trip fails — decoding
the encoding of `2^63` yields fee `-(2^63)`, not `2^63`, because
`DecodeWithdrawal` rebuilds the fee through Go's signed `int64`. -/
theorem c1_roundtrip_counterexample :
    (DecodeWithdrawal 0 (GetWithdrawalData (List.replicate 20 0) (2 ^ 63))).map
        Withdrawal.fee = .ok (-(2 ^ 63) : Int) ∧
    (-(2 ^ 63) : Int) ≠ ((2 ^ 63 : Nat) : Int) := by
  decide

/-- C1 (amended): for every value `v` and fee `f < 2^64`, decoding the
encoding succeeds and recovers the 20 address bytes exactly; the decoded fee
equals `f` when `f < 2^63`, and equals `f - 2^64` when `f ≥ 2^63`. -/
theorem c1_encode_decode_roundtrip (v : Int) (addr : List Byte)
    (haddr : addr.length = 20) (fee : Nat) (hfee : fee < 2 ^ 64) :
    ∃ w, DecodeWithdrawal v (GetWithdrawalData addr fee) = .ok w ∧
      w.address = addr ∧
      (fee < 2 ^ 63 → w.fee = (fee : Int)) ∧
      (2 ^ 63 ≤ fee → w.fee = (fee : Int) - 2 ^ 64) := by
  refine ⟨_, decodeWithdrawal_ok v _ (getWithdrawalData_length addr haddr fee), ?_, ?_, ?_⟩
  · exact getWithdrawalData_drop addr fee
  · intro h
    simp only [getWithdrawalData_take, beUint64_putUint64BE fee hfee]
    exact int64OfUInt64_of_lt fee h
  · intro h
    simp only [getWithdrawalData_take, beUint64_putUint64BE fee hfee]
    exact int64OfUInt64_of_ge fee h hfee

/-- C1 (witness): the round-trip at `v = 7`, fee `1000`, a concrete 20-byte
address. -/
theorem c1_roundtrip_witness :
    (List.replicate 20 (5 : Byte)).length = 20 ∧ (1000 : Nat) < 2 ^ 64 ∧
    ∃ w, DecodeWithdrawal 7 (GetWithdrawalData (List.replicate 20 5) 1000) = .ok w ∧
      w.address = List.replicate 20 5 ∧
      ((1000 : Nat) < 2 ^ 63 → w.fee = ((1000 : Nat) : Int)) ∧
      (2 ^ 63 ≤ (1000 : Nat) → w.fee = ((1000 : Nat) : Int) - 2 ^ 64) :=
  ⟨by decide, by decide,
   c1_encode_decode_roundtrip 7 (List.replicate 20 5) (by decide) 1000 (by decide)⟩

/-- C3: `DecodeWithdrawal` returns the malformed-withdrawal-data error for
every data length other than 28, never reaches either internal
`panic("off by one error")` branch, and succeeds on every 28-byte input. -/
theorem c3_length_guard (v : Int) (data : List Byte) :
    (data.length ≠ 28 → DecodeWithdrawal v data = .error .malformedWithdrawalData) ∧
    DecodeWithdrawal v data ≠ .error .offByOnePanic ∧
    (data.length = 28 → ∃ w, DecodeWithdrawal v data = .ok w) := by
  by_cases h : data.length = 28
  · refine ⟨fun hne => absurd h hne, ?_, fun _ => ⟨_, decodeWithdrawal_ok v data h⟩⟩
    rw [decodeWithdrawal_ok v data h]
    intro hcontra
    exact Except.noConfusion hcontra
  · have herr : DecodeWithdrawal v data = .error .malformedWithdrawalData := by
      unfold DecodeWithdrawal
      rw [if_pos h]
    refine ⟨fun _ => herr, ?_, fun h28 => absurd h28 h⟩
    rw [herr]
    intro hcontra
    exact DecodeError.noConfusion (Except.error.inj hcontra)

/-- C3 (witness): 27 zero bytes are rejected with the recoverable error and
no panic; 28 zero bytes decode successfully. -/
theorem c3_length_guard_witness :
    ((List.replicate 27 (0 : Byte)).length ≠ 28 →
      DecodeWithdrawal 0 (List.replicate 27 0) = .error .malformedWithdrawalData) ∧
    DecodeWithdrawal 0 (List.replicate 27 (0 : Byte)) ≠ .error .offByOnePanic ∧
    ((List.replicate 28 (0 : Byte)).length = 28 →
      ∃ w, DecodeWithdrawal 0 (List.replicate 28 0) = .ok w) :=
  ⟨(c3_length_guard 0 (List.replicate 27 0)).1,
   (c3_length_guard 0 (List.replicate 27 0)).2.1,
   (c3_length_guard 0 (List.replicate 28 0)).2.2⟩

/-- C4 (counterexample): on a 28-byte input whose first fee byte is `0x80`,
the decoded `Fee` is `-(2^63)`, not the big-endian unsigned value `2^63` the
claim states: the code reinterprets the fee as a signed `int64`. -/
theorem c4_decode_counterexample :
    beUint64 ((⟨128, by decide⟩ :: List.replicate 27 (0 : Byte)).take 8) = 2 ^ 63 ∧
    (DecodeWithdrawal 0 (⟨128, by decide⟩ :: List.replicate 27 (0 : Byte))).map
        Withdrawal.fee = .ok (-(2 ^ 63) : Int) ∧
    (-(2 ^ 63) : Int) ≠ ((2 ^ 63 : Nat) : Int) := by
  decide

/-- C4 (amended): for every value `v` and 28-byte `data`, decoding succeeds
with `Address` exactly bytes 8..28, `Amount = ⌊v / 10^10⌋`, and `Fee` the
big-endian value of bytes 0..8 reinterpreted as a signed 64-bit integer —
equal to the unsigned big-endian value whenever that value is below `2^63`
(no unit rescaling in any case). -/
theorem c4_decode_layout (v : Int) (data : List Byte) (h : data.length = 28) :
    DecodeWithdrawal v data =
      .ok ⟨data.drop 8, Int.fdiv v (10 ^ 10), int64OfUInt64 (beUint64 (data.take 8))⟩ ∧
    (beUint64 (data.take 8) < 2 ^ 63 →
      int64OfUInt64 (beUint64 (data.take 8)) = (beUint64 (data.take 8) : Int)) := by
  constructor
  · exact decodeWithdrawal_ok v data h
  · exact int64OfUInt64_of_lt _

/-- C4 (witness): the spec's scenario — `v = 12345 * 10^10`, fee bytes
encoding 1000, a concrete 20-byte address — decodes to amount 12345, fee
1000 and exactly those address bytes. -/
theorem c4_decode_layout_witness :
    (putUint64BE 1000 ++ List.replicate 20 (9 : Byte)).length = 28 ∧
    (DecodeWithdrawal (12345 * 10 ^ 10) (putUint64BE 1000 ++ List.replicate 20 9) =
        .ok ⟨(putUint64BE 1000 ++ List.replicate 20 (9 : Byte)).drop 8,
          Int.fdiv (12345 * 10 ^ 10) (10 ^ 10),
          int64OfUInt64 (beUint64 ((putUint64BE 1000 ++ List.replicate 20 (9 : Byte)).take 8))⟩ ∧
      (beUint64 ((putUint64BE 1000 ++ List.replicate 20 (9 : Byte)).take 8) < 2 ^ 63 →
        int64OfUInt64 (beUint64 ((putUint64BE 1000 ++ List.replicate 20 (9 : Byte)).take 8)) =
          (beUint64 ((putUint64BE 1000 ++ List.replicate 20 (9 : Byte)).take 8) : Int))) ∧
    DecodeWithdrawal (12345 * 10 ^ 10) (putUint64BE 1000 ++ List.replicate 20 9) =
      .ok ⟨List.replicate 20 9, 12345, 1000⟩ :=
  ⟨by decide, c4_decode_layout (12345 * 10 ^ 10) _ (by decide), by decide⟩

/-- C8: `GetWithdrawalData` produces exactly 28 bytes — the first 8 the fee
as an unsigned big-endian integer, the remaining 20 the raw bytes of the
freshly allocated connector address — and nothing else. -/
theorem c8_encoding_layout (addr : List Byte) (haddr : addr.length = 20)
    (fee : Nat) (hfee : fee < 2 ^ 64) :
    (GetWithdrawalData addr fee).length = 28 ∧
    (GetWithdrawalData addr fee).take 8 = putUint64BE fee ∧
    beUint64 ((GetWithdrawalData addr fee).take 8) = fee ∧
    (GetWithdrawalData addr fee).drop 8 = addr ∧
    GetWithdrawalData addr fee = putUint64BE fee ++ addr := by
  refine ⟨getWithdrawalData_length addr haddr fee, getWithdrawalData_take addr fee,
    ?_, getWithdrawalData_drop addr fee, rfl⟩
  rw [getWithdrawalData_take addr fee]
  exact beUint64_putUint64BE fee hfee

/-- C8 (witness): the layout at fee 1000 and a concrete 20-byte address. -/
theorem c8_encoding_layout_witness :
    (List.replicate 20 (17 : Byte)).length = 20 ∧ (1000 : Nat) < 2 ^ 64 ∧
    ((GetWithdrawalData (List.replicate 20 17) 1000).length = 28 ∧
      (GetWithdrawalData (List.replicate 20 17) 1000).take 8 = putUint64BE 1000 ∧
      beUint64 ((GetWithdrawalData (List.replicate 20 (17 : Byte)) 1000).take 8) = 1000 ∧
      (GetWithdrawalData (List.replicate 20 17) 1000).drop 8 = List.replicate 20 17 ∧
      GetWithdrawalData (List.replicate 20 17) 1000 =
        putUint64BE 1000 ++ List.replicate 20 (17 : Byte)) :=
  ⟨by decide, by decide,
   c8_encoding_layout (List.replicate 20 17) (by decide) 1000 (by decide)⟩

/-- C2: unit conversion is an exact floor inverse — `toSidechainUnits`
multiplies by `10^10`, `toMainchainUnits` floor-divides by `10^10`, and for
every non-negative `s` and remainder `0 ≤ r < 10^10`,
`toMainchainUnits (toSidechainUnits s) = s` and
`toMainchainUnits (toSidechainUnits s + r) = s`. -/
theorem c2_unit_conversion (s r : Int) (_hs : 0 ≤ s) (hr : 0 ≤ r) (hr10 : r < 10 ^ 10) :
    toSidechainUnits s = s * 10 ^ 10 ∧
    toMainchainUnits (toSidechainUnits s) = s ∧
    toMainchainUnits (toSidechainUnits s + r) = s := by
  unfold toMainchainUnits toSidechainUnits Satoshi
  rw [Int.fdiv_eq_ediv _ (by norm_num), Int.fdiv_eq_ediv _ (by norm_num)]
  refine ⟨by norm_num, ?_, ?_⟩ <;> omega

/-- C2 (witness): the conversion at `s = 5`, `r = 7`. -/
theorem c2_unit_conversion_witness :
    (0 : Int) ≤ 5 ∧ (0 : Int) ≤ 7 ∧ (7 : Int) < 10 ^ 10 ∧
    (toSidechainUnits 5 = 5 * 10 ^ 10 ∧
      toMainchainUnits (toSidechainUnits 5) = 5 ∧
      toMainchainUnits (toSidechainUnits 5 + 7) = 5) :=
  ⟨by decide, by decide, by decide, c2_unit_conversion 5 7 (by decide) (by decide) (by decide)⟩

/-- C6: `ConnectBlock` sizes the refund marshalling buffer by the number of
withdrawals while writing one entry per refund: whenever
`len(refunds) ≤ len(withdrawals)` every refund write lands inside the
allocation, and there is an input with `len(refunds) > len(withdrawals)` for
which a refund entry is written outside the allocated buffer. -/
theorem c6_refund_buffer_sizing :
    (∀ (deposits : List Deposit) (withdrawals : List (Hash × Withdrawal))
        (refunds : List Hash),
      (connectBlockBuffers deposits withdrawals refunds).refundsCapacity =
        withdrawals.length ∧
      (connectBlockBuffers deposits withdrawals refunds).refundWriteIndices.length =
        refunds.length ∧
      (refunds.length ≤ withdrawals.length →
        ∀ i ∈ (connectBlockBuffers deposits withdrawals refunds).refundWriteIndices,
          i < (connectBlockBuffers deposits withdrawals refunds).refundsCapacity)) ∧
    (∃ (deposits : List Deposit) (withdrawals : List (Hash × Withdrawal))
        (refunds : List Hash),
      withdrawals.length < refunds.length ∧
      ∃ i ∈ (connectBlockBuffers deposits withdrawals refunds).refundWriteIndices,
        ¬ i < (connectBlockBuffers deposits withdrawals refunds).refundsCapacity) := by
  constructor
  · intro deposits withdrawals refunds
    refine ⟨rfl, by simp [connectBlockBuffers], fun hle i hi => ?_⟩
    simp only [connectBlockBuffers, List.mem_range] at hi
    simpa [connectBlockBuffers] using lt_of_lt_of_le hi hle
  · exact ⟨[], [], [0], by decide, 0, by decide, by decide⟩

/-- C6 (witness): with one withdrawal and one refund the single refund write
is in bounds. -/
theorem c6_refund_buffer_sizing_witness :
    ([(5 : Hash)]).length ≤ ([((0 : Hash), (⟨List.replicate 20 0, 0, 0⟩ : Withdrawal))]).length ∧
    0 ∈ (connectBlockBuffers [] [((0 : Hash), (⟨List.replicate 20 0, 0, 0⟩ : Withdrawal))]
          [(5 : Hash)]).refundWriteIndices ∧
    0 < (connectBlockBuffers [] [((0 : Hash), (⟨List.replicate 20 0, 0, 0⟩ : Withdrawal))]
          [(5 : Hash)]).refundsCapacity :=
  ⟨by decide, by decide,
   (c6_refund_buffer_sizing.1 [] [((0 : Hash), (⟨List.replicate 20 0, 0, 0⟩ : Withdrawal))]
      [(5 : Hash)]).2.2 (by decide) 0 (by decide)⟩

/-- C7: `connectBlock` is all-or-nothing — in both dry-run and commit mode,
a call that returns false leaves the whole persistent state, in particular
the queued withdrawals and the consumed deposits, unchanged. -/
theorem c7_connectBlock_atomic (st : SidechainState) (deposits : List Deposit)
    (withdrawals : List (Hash × Withdrawal)) (refunds : List Hash) (justChecking : Bool)
    (h : (connectBlock st deposits withdrawals refunds justChecking).1 = false) :
    (connectBlock st deposits withdrawals refunds justChecking).2 = st ∧
    (connectBlock st deposits withdrawals refunds justChecking).2.queuedWithdrawals =
      st.queuedWithdrawals ∧
    (connectBlock st deposits withdrawals refunds justChecking).2.consumedDeposits =
      st.consumedDeposits := by
  by_cases hv : validBlock st deposits withdrawals refunds = true
  · exfalso
    unfold connectBlock at h
    rw [if_pos hv] at h
    cases justChecking <;> simp at h
  · unfold connectBlock
    rw [if_neg hv]
    exact ⟨rfl, rfl, rfl⟩

/-- C7 (witness): a batch with a duplicated withdrawal id is rejected and
the state (here the empty state) is unchanged. -/
theorem c7_connectBlock_atomic_witness :
    (connectBlock ⟨[], [], [], []⟩ []
        [((1 : Hash), (⟨List.replicate 20 0, 0, 0⟩ : Withdrawal)),
         ((1 : Hash), (⟨List.replicate 20 0, 0, 0⟩ : Withdrawal))] [] false).1 = false ∧
    ((connectBlock ⟨[], [], [], []⟩ []
        [((1 : Hash), (⟨List.replicate 20 0, 0, 0⟩ : Withdrawal)),
         ((1 : Hash), (⟨List.replicate 20 0, 0, 0⟩ : Withdrawal))] [] false).2 =
      ⟨[], [], [], []⟩ ∧
    (connectBlock ⟨[], [], [], []⟩ []
        [((1 : Hash), (⟨List.replicate 20 0, 0, 0⟩ : Withdrawal)),
         ((1 : Hash), (⟨List.replicate 20 0, 0, 0⟩ : Withdrawal))] [] false).2.queuedWithdrawals =
      SidechainState.queuedWithdrawals ⟨[], [], [], []⟩ ∧
    (connectBlock ⟨[], [], [], []⟩ []
        [((1 : Hash), (⟨List.replicate 20 0, 0, 0⟩ : Withdrawal)),
         ((1 : Hash), (⟨List.replicate 20 0, 0, 0⟩ : Withdrawal))] [] false).2.consumedDeposits =
      SidechainState.consumedDeposits ⟨[], [], [], []⟩) :=
  ⟨by decide,
   c7_connectBlock_atomic ⟨[], [], [], []⟩ []
     [((1 : Hash), (⟨List.replicate 20 0, 0, 0⟩ : Withdrawal)),
      ((1 : Hash), (⟨List.replicate 20 0, 0, 0⟩ : Withdrawal))] [] false (by decide)⟩

/-- C9: `VerifyBmm` is pure and deterministic — its boolean depends only on
the mainchain view and the two hashes, not on the caller's local BMM attempt
state; it never mutates the process state; and re-invoking it yields the
same result. -/
theorem c9_verifyBmm_pure (s₁ s₂ : BmmProcessState) (mainBlockHash criticalHash : Hash)
    (h : s₁.mainchain = s₂.mainchain) :
    (VerifyBmm s₁ mainBlockHash criticalHash).1 = (VerifyBmm s₂ mainBlockHash criticalHash).1 ∧
    (VerifyBmm s₁ mainBlockHash criticalHash).2 = s₁ ∧
    (VerifyBmm (VerifyBmm s₁ mainBlockHash criticalHash).2 mainBlockHash criticalHash).1 =
      (VerifyBmm s₁ mainBlockHash criticalHash).1 := by
  unfold VerifyBmm
  rw [h]
  exact ⟨rfl, rfl, rfl⟩

/-- C9 (witness): two processes sharing a mainchain view but holding
different local attempt state get the same verify result. -/
theorem c9_verifyBmm_pure_witness :
    (BmmProcessState.mk ⟨[(1, 2)]⟩ ⟨none⟩).mainchain =
      (BmmProcessState.mk ⟨[(1, 2)]⟩ ⟨some (3, 4, 5)⟩).mainchain ∧
    ((VerifyBmm ⟨⟨[(1, 2)]⟩, ⟨none⟩⟩ 1 2).1 =
        (VerifyBmm ⟨⟨[(1, 2)]⟩, ⟨some (3, 4, 5)⟩⟩ 1 2).1 ∧
      (VerifyBmm ⟨⟨[(1, 2)]⟩, ⟨none⟩⟩ 1 2).2 = ⟨⟨[(1, 2)]⟩, ⟨none⟩⟩ ∧
      (VerifyBmm (VerifyBmm ⟨⟨[(1, 2)]⟩, ⟨none⟩⟩ 1 2).2 1 2).1 =
        (VerifyBmm ⟨⟨[(1, 2)]⟩, ⟨none⟩⟩ 1 2).1) :=
  ⟨rfl, c9_verifyBmm_pure ⟨⟨[(1, 2)]⟩, ⟨none⟩⟩ ⟨⟨[(1, 2)]⟩, ⟨some (3, 4, 5)⟩⟩ 1 2 rfl⟩

/-- C10: `GetDepositOutputs` reinterprets each `uint64` deposit amount as a
signed `int64` before widening: amounts below `2^63` survive unchanged, and
amounts `≥ 2^63` come out as `a - 2^64`, which is negative. -/
theorem c10_deposit_amount_reinterpreted (rawDeposits : List RawDeposit) (i : Nat)
    (hi : i < rawDeposits.length) (hlt : (rawDeposits.get ⟨i, hi⟩).amount < 2 ^ 64) :
    ∃ hd : i < (GetDepositOutputs rawDeposits).length,
      ((GetDepositOutputs rawDeposits).get ⟨i, hd⟩).address =
        (rawDeposits.get ⟨i, hi⟩).address ∧
      ((rawDeposits.get ⟨i, hi⟩).amount < 2 ^ 63 →
        ((GetDepositOutputs rawDeposits).get ⟨i, hd⟩).amount =
          ((rawDeposits.get ⟨i, hi⟩).amount : Int)) ∧
      (2 ^ 63 ≤ (rawDeposits.get ⟨i, hi⟩).amount →
        ((GetDepositOutputs rawDeposits).get ⟨i, hd⟩).amount =
          ((rawDeposits.get ⟨i, hi⟩).amount : Int) - 2 ^ 64 ∧
        ((GetDepositOutputs rawDeposits).get ⟨i, hd⟩).amount < 0) := by
  have hlen : (GetDepositOutputs rawDeposits).length = rawDeposits.length := by
    simp [GetDepositOutputs]
  refine ⟨by omega, ?_, ?_, ?_⟩
  · simp [GetDepositOutputs, List.get_eq_getElem, List.getElem_map]
  · intro hsmall
    simp only [GetDepositOutputs, List.get_eq_getElem, List.getElem_map]
    exact int64OfUInt64_of_lt _ hsmall
  · intro hbig
    simp only [GetDepositOutputs, List.get_eq_getElem, List.getElem_map]
    exact ⟨int64OfUInt64_of_ge _ hbig hlt, int64OfUInt64_neg_of_ge _ hbig hlt⟩

/-- C10 (witness): a deposit of `5` keeps amount `5`; a deposit of `2^63`
comes out as `-(2^63)`. -/
theorem c10_deposit_amount_witness :
    (([⟨"addr1", 5⟩, ⟨"addr2", 2 ^ 63⟩] : List RawDeposit).get
        ⟨1, by decide⟩).amount < 2 ^ 64 ∧
    ∃ hd : 1 < (GetDepositOutputs [⟨"addr1", 5⟩, ⟨"addr2", 2 ^ 63⟩]).length,
      ((GetDepositOutputs [⟨"addr1", 5⟩, ⟨"addr2", 2 ^ 63⟩]).get ⟨1, hd⟩).address =
        (([⟨"addr1", 5⟩, ⟨"addr2", 2 ^ 63⟩] : List RawDeposit).get ⟨1, by decide⟩).address ∧
      ((([⟨"addr1", 5⟩, ⟨"addr2", 2 ^ 63⟩] : List RawDeposit).get ⟨1, by decide⟩).amount < 2 ^ 63 →
        ((GetDepositOutputs [⟨"addr1", 5⟩, ⟨"addr2", 2 ^ 63⟩]).get ⟨1, hd⟩).amount =
          ((([⟨"addr1", 5⟩, ⟨"addr2", 2 ^ 63⟩] : List RawDeposit).get ⟨1, by decide⟩).amount : Int)) ∧
      (2 ^ 63 ≤ (([⟨"addr1", 5⟩, ⟨"addr2", 2 ^ 63⟩] : List RawDeposit).get ⟨1, by decide⟩).amount →
        ((GetDepositOutputs [⟨"addr1", 5⟩, ⟨"addr2", 2 ^ 63⟩]).get ⟨1, hd⟩).amount =
          ((([⟨"addr1", 5⟩, ⟨"addr2", 2 ^ 63⟩] : List RawDeposit).get ⟨1, by decide⟩).amount : Int)
            - 2 ^ 64 ∧
        ((GetDepositOutputs [⟨"addr1", 5⟩, ⟨"addr2", 2 ^ 63⟩]).get ⟨1, hd⟩).amount < 0) :=
  ⟨by decide,
   c10_deposit_amount_reinterpreted [⟨"addr1", 5⟩, ⟨"addr2", 2 ^ 63⟩] 1 (by decide) (by decide)⟩

set_option maxRecDepth 100000 in
/-- C5: the public address derived from the fixed treasury private key
constant is exactly `0xc96aaa54e2d44c299564da76e1cd3184a2386b8d` (the
lowercase form `Init` compares against); `Init` proceeds on that derived
address, and any derived address whose lowercased hex differs from the
hard-coded constant makes `Init` abort fatally. -/
theorem c5_treasury_identity :
    derivedTreasuryAddress = some 0xc96aaa54e2d44c299564da76e1cd3184a2386b8d ∧
    (∀ a, derivedTreasuryAddress = some a → InitCheck a = .ok ()) ∧
    (∀ a, actualTreasuryAccountOf a ≠ TREASURY_ACCOUNT →
      InitCheck a = .error "treasury account mismatch panic") := by
  have hderived : derivedTreasuryAddress =
      some 0xc96aaa54e2d44c299564da76e1cd3184a2386b8d := by decide
  refine ⟨hderived, ?_, ?_⟩
  · intro a ha
    rw [hderived] at ha
    have haddr : a = 0xc96aaa54e2d44c299564da76e1cd3184a2386b8d :=
      (Option.some.inj ha).symm
    subst haddr
    decide
  · intro a hne
    unfold InitCheck
    rw [if_pos fun e => hne e.symm]

/-- C5 (witness): the derived address passes the check; address `0` (a
mismatch) makes the check abort. -/
theorem c5_treasury_identity_witness :
    derivedTreasuryAddress = some 0xc96aaa54e2d44c299564da76e1cd3184a2386b8d ∧
    InitCheck 0xc96aaa54e2d44c299564da76e1cd3184a2386b8d = .ok () ∧
    actualTreasuryAccountOf 0 ≠ TREASURY_ACCOUNT ∧
    InitCheck 0 = .error "treasury account mismatch panic" :=
  ⟨c5_treasury_identity.1,
   c5_treasury_identity.2.1 _ c5_treasury_identity.1,
   by decide,
   c5_treasury_identity.2.2 0 (by decide)⟩

end Drivechain
